import Mathlib

/-!
Shallow embedding of the core playback pipeline of `src/Player/AudioPlayer.cpp`
(SFBAudioEngine): the atomic frame counters, the active-decoder slot table, the
render callback (`AudioPlayer::Render`), the post-render accounting
(`AudioPlayer::DidRender`), the decode worker (`AudioPlayer::FileReaderThreadEntry`),
the collector sweep (`AudioPlayer::CollectorThreadEntry`), and the controller
surface (`Play`, `Enqueue`, `Stop`, `Pause`, `GetCurrentFrame`,
`GetCurrentDecoderState`, `StopActiveDecoders`).

Machine integers: the C++ code uses `SInt64` counters and `UInt32` frame counts;
we model `SInt64` as `Int` (the counters stay far below 2^63 in every scenario
treated here) and make the one observable `SInt64 → UInt32` narrowing conversion
explicit via `toUInt32m` (value modulo 2^32, the C++ conversion rule).

The concurrent pipeline is embedded as a sequential transition system: each
step is one atomic block of one thread (one render callback, one post-render
accounting run, one iteration of the decode worker's fill loop, one collector
sweep, one controller call).  `Reachable` closes the initial state under these
steps; replies of the external decoder (`ReadAudio`, `SeekToFrame` results) are
step parameters, since decoders are external collaborators.
-/

namespace SFB

/-- The conversion `static_cast<UInt32>(x)` for a signed 64-bit `x`: value modulo 2^32. -/
def toUInt32m (x : Int) : Nat :=
  (x % (2 ^ 32 : Int)).toNat

/-- RING_BUFFER_SIZE_FRAMES (AudioPlayer.cpp line 51). -/
def ringBufferSizeFrames : Int := 16384

/-- RING_BUFFER_WRITE_CHUNK_SIZE_FRAMES (AudioPlayer.cpp line 52). -/
def ringBufferWriteChunkSizeFrames : Int := 2048

/-- Audio format: the two fields `Enqueue` compares
(`mSampleRate`, `mChannelsPerFrame`).  The sample rate is a `Float64` in the
source; the comparison is equality of two stored values, modelled over `Int`
(rates such as 44100 are stored exactly). -/
structure AudioFormat where
  mSampleRate : Int
  mChannelsPerFrame : Nat
  deriving DecidableEq, Repr

/-- Modelled from the spec: the external decoder interface (spec section 6).
Only the observable fields the player touches are kept: an identity (the C++
object pointer, used to attribute notification callbacks), the declared total
frame count (`GetTotalFrames`), the current frame (`GetCurrentFrame`), and the
format (`GetFormat`).  `ReadAudio` and `SeekToFrame` replies are supplied by
the environment at each worker step. -/
structure AudioDecoder where
  ident : Nat
  totalFrames : Int
  currentFrame : Int
  format : AudioFormat
  deriving DecidableEq, Repr

/-- Modelled from the spec: `DecoderStateData` (its header is not under `src/`;
fields and initial values follow spec section 3 and the uses in
AudioPlayer.cpp): `timeStamp` sampled from `nextDecoderStartingTimeStamp` at
creation, `framesRendered` starts at 0, `frameToSeek` starts at the sentinel
-1, `keepDecoding` true, `readyForCollection` false, `totalFrames` declared by
the decoder. -/
structure DecoderStateData where
  mDecoder : AudioDecoder
  mTimeStamp : Int
  mTotalFrames : Int
  mFramesRendered : Int
  mFrameToSeek : Int
  mKeepDecoding : Bool
  mReadyForCollection : Bool
  deriving DecidableEq, Repr

/-- Fresh decoder state built by the worker on entry
(AudioPlayer.cpp lines 1643-1645 plus the `DecoderStateData` constructor,
modelled from the spec). -/
def DecoderStateData.create (d : AudioDecoder) (timeStamp : Int) : DecoderStateData :=
  { mDecoder := d
    mTimeStamp := timeStamp
    mTotalFrames := d.totalFrames
    mFramesRendered := 0
    mFrameToSeek := -1
    mKeepDecoding := true
    mReadyForCollection := false }

/-- Notification callbacks fired into the external decoder, tagged with the
decoder's identity. -/
inductive Event where
  | decodingStarted (ident : Nat)
  | decodingFinished (ident : Nat)
  | renderingStarted (ident : Nat)
  | renderingFinished (ident : Nat)
  | graphReset
  deriving DecidableEq, Repr

/-- One planar output buffer of the host's `AudioBufferList`: sample data
(float32 entries, zeroing is all that matters, so samples are `Int`) and the
`mDataByteSize` field in bytes (sizeof(float) = 4). -/
structure AudioBuffer where
  mData : List Int
  mDataByteSize : Nat
  deriving DecidableEq, Repr

abbrev BufferList := List AudioBuffer

/-- Host status codes returned by the render callback. -/
inductive HostStatus where
  | noErr
  | ioErr
  deriving DecidableEq, Repr

/-- The player's shared state: the two global atomic counters, the next
starting timestamp, the single-writer `mFramesRenderedLastPass` field, the
active-decoder slot table (`mActiveDecoders`, modelled as a list of optional
slots scanned in declaration order), the mutex-guarded decoder queue, whether
the AUGraph is running (`AUGraphIsRunning`), and the format programmed into
the output node (read back by `Enqueue`).

`eosTotalsThisSession` is model bookkeeping (not a C++ field): the corrected
`totalFrames` of every decoder that has reached end of stream in the current
play session, appended exactly where `FileReaderThreadEntry` adds to
`mNextDecoderStartingTimeStamp`, and cleared where `Play`/`Stop` start or end
a session.  It exists only to state spec invariant 8.5. -/
structure PlayerState where
  mFramesDecoded : Int
  mFramesRendered : Int
  mNextDecoderStartingTimeStamp : Int
  mFramesRenderedLastPass : Nat
  mActiveDecoders : List (Option DecoderStateData)
  mDecoderQueue : List AudioDecoder
  graphRunning : Bool
  graphFormat : AudioFormat
  eosTotalsThisSession : List Int
  deriving DecidableEq, Repr

/-- Player state right after construction: counters zero, empty table and
queue, graph not running. -/
def initialState (fmt : AudioFormat) (slots : Nat) : PlayerState :=
  { mFramesDecoded := 0
    mFramesRendered := 0
    mNextDecoderStartingTimeStamp := 0
    mFramesRenderedLastPass := 0
    mActiveDecoders := List.replicate slots none
    mDecoderQueue := []
    graphRunning := false
    graphFormat := fmt
    eosTotalsThisSession := [] }

/-- One step of the `GetCurrentDecoderState` scan (loop body, lines
2538-2551): skip null and ready-for-collection entries, keep the entry with
the smaller `mTimeStamp` (the incumbent wins ties). -/
def currentDecoderStep (result slot : Option DecoderStateData) :
    Option DecoderStateData :=
  match slot with
  | none => result
  | some decoderState =>
    if decoderState.mReadyForCollection then result
    else
      match result with
      | none => some decoderState
      | some r =>
        if decoderState.mTimeStamp < r.mTimeStamp then some decoderState
        else some r

/-- Embedding of `AudioPlayer::GetCurrentDecoderState` (lines 2535-2554). -/
def GetCurrentDecoderState (slots : List (Option DecoderStateData)) :
    Option DecoderStateData :=
  slots.foldl currentDecoderStep none

/-- Embedding of `AudioPlayer::GetCurrentFrame` (lines 382-390). -/
def GetCurrentFrame (s : PlayerState) : Int :=
  match GetCurrentDecoderState s.mActiveDecoders with
  | none => -1
  | some currentDecoderState =>
    if currentDecoderState.mFrameToSeek = -1 then currentDecoderState.mFramesRendered
    else currentDecoderState.mFrameToSeek

/-- Embedding of `AudioPlayer::StopActiveDecoders` (lines 2556-2572): clear `mKeepDecoding`
and set `mReadyForCollection` on every non-null slot. -/
def StopActiveDecoders (slots : List (Option DecoderStateData)) :
    List (Option DecoderStateData) :=
  slots.map
    (fun slot =>
      match slot with
      | none => none
      | some decoderState =>
        some { decoderState with mKeepDecoding := false, mReadyForCollection := true })

/-- Embedding of `AudioPlayer::Pause` (lines 341-350): stop the graph if running. -/
def Pause (s : PlayerState) : PlayerState :=
  if s.graphRunning then { s with graphRunning := false } else s

/-- Embedding of `AudioPlayer::Play()` with no argument (lines 330-339): start the graph. -/
def PlayNoArg (s : PlayerState) : PlayerState :=
  if s.graphRunning then s else { s with graphRunning := true }

/-- Embedding of `AudioPlayer::Stop` (lines 352-365): no-op unless playing; otherwise
pause, stop active decoders, reset the graph, zero the three counters.
Ending the session also empties the session-EOS bookkeeping. -/
def Stop (s : PlayerState) : PlayerState :=
  if ¬ s.graphRunning then s
  else
    let s1 := Pause s
    let s2 := { s1 with mActiveDecoders := StopActiveDecoders s1.mActiveDecoders }
    { s2 with
        mFramesDecoded := 0
        mFramesRendered := 0
        mNextDecoderStartingTimeStamp := 0
        eosTotalsThisSession := [] }

/-- Embedding of `AudioPlayer::Play(AudioDecoder *)` (lines 1287-1348): pause if playing,
stop active decoders, reset graph, zero the counters, push the decoder at the
front of the queue, program the output format from the decoder, spawn a
worker (a separate step), resume if it had been playing.  Starting a new
session also empties the session-EOS bookkeeping. -/
def PlayDecoder (d : AudioDecoder) (s : PlayerState) : Bool × PlayerState :=
  let wasPlaying := s.graphRunning
  let s1 := if wasPlaying then Pause s else s
  let s2 := { s1 with mActiveDecoders := StopActiveDecoders s1.mActiveDecoders }
  let s3 := { s2 with
                mFramesDecoded := 0
                mFramesRendered := 0
                mNextDecoderStartingTimeStamp := 0
                eosTotalsThisSession := [] }
  let s4 := { s3 with mDecoderQueue := d :: s3.mDecoderQueue }
  let s5 := { s4 with graphFormat := d.format }
  let s6 := if wasPlaying then PlayNoArg s5 else s5
  (true, s6)

/-- Embedding of `AudioPlayer::Enqueue(AudioDecoder *)` (lines 1367-1455): with no current
decoder state and an empty queue, degrade to `Play`; otherwise compare the
decoder's sample rate and channel count against the output node's format and
push at the back only on a match. -/
def Enqueue (d : AudioDecoder) (s : PlayerState) : Bool × PlayerState :=
  if GetCurrentDecoderState s.mActiveDecoders = none ∧ s.mDecoderQueue = [] then
    PlayDecoder d s
  else
    -- formatsMatch: same sample rate and channel count (line 1432)
    if d.format.mSampleRate = s.graphFormat.mSampleRate ∧
        d.format.mChannelsPerFrame = s.graphFormat.mChannelsPerFrame then
      (true, { s with mDecoderQueue := s.mDecoderQueue ++ [d] })
    else (false, s)

/-- Embedding of `AudioPlayer::Render` (lines 1484-1541), parameterized by the ring
buffer's `Fetch` (`CARingBuffer` is an external source file; per spec section
4.1 it copies out `frameCount` frames starting at the absolute index,
returning an error code): `fetch buffers frameCount startIndex` yields `none`
on a ring error, otherwise the filled buffer list.

Returns the new player state, the output buffer list, the
`kAudioUnitRenderAction_OutputIsSilence` flag, and the host status. -/
def Render (fetch : BufferList → Nat → Int → Option BufferList)
    (inNumberFrames : Nat) (ioData : BufferList) (s : PlayerState) :
    PlayerState × BufferList × Bool × HostStatus :=
  let framesAvailableToRead := toUInt32m (s.mFramesDecoded - s.mFramesRendered)
  if framesAvailableToRead = 0 then
    -- silence branch: memset inNumberFrames * sizeof(float) bytes in each buffer
    let byteCountToZero := inNumberFrames * 4
    let out := ioData.map
      (fun b =>
        { mData := List.replicate inNumberFrames 0 ++ b.mData.drop inNumberFrames
          mDataByteSize := byteCountToZero })
    (s, out, true, HostStatus.noErr)
  else
    let framesToRead := min framesAvailableToRead inNumberFrames
    match fetch ioData framesToRead s.mFramesRendered with
    | none => (s, ioData, false, HostStatus.ioErr)
    | some fetched =>
      let s1 := { s with
                    mFramesRenderedLastPass := framesToRead
                    mFramesRendered := s.mFramesRendered + framesToRead }
      if framesToRead ≠ inNumberFrames then
        let framesOfSilence := inNumberFrames - framesToRead
        let byteCountToZero := framesOfSilence * 4
        let out := fetched.map
          (fun b =>
            { mData := b.mData.take framesToRead ++
                       List.replicate framesOfSilence 0 ++
                       b.mData.drop inNumberFrames
              mDataByteSize := b.mDataByteSize + byteCountToZero })
        (s1, out, false, HostStatus.noErr)
      else (s1, fetched, false, HostStatus.noErr)

/-- Per-visited-slot record of one `DidRender` accounting scan: the state's
`mFramesRendered` before the visit, its `mTotalFrames`, the frames attributed
(`framesFromThisDecoder` in the source), the value of
`framesRemainingToDistribute` when the slot was visited, and which
notifications fired. -/
structure ScanEntry where
  ident : Nat
  framesRenderedBefore : Int
  totalFrames : Int
  give : Int
  remainingBefore : Int
  firedStarted : Bool
  firedFinished : Bool
  deriving DecidableEq, Repr, Inhabited

/-- The slot loop of `AudioPlayer::DidRender` (lines 1565-1596):
`lastPass` is `mFramesRenderedLastPass`, `remaining` is
`framesRemainingToDistribute`.  Null and ready-for-collection slots are
skipped; each visited state receives
`min(mTotalFrames - mFramesRendered, lastPass)` frames; the rendering-started
callback fires when the state's `mFramesRendered` was 0; the
rendering-finished callback fires and the state becomes ready for collection
when the new `mFramesRendered` equals `mTotalFrames`; the loop breaks when
`remaining` reaches exactly 0 after the subtraction. -/
def didRenderScan (lastPass : Int) :
    List (Option DecoderStateData) → Int →
    List (Option DecoderStateData) × List ScanEntry
  | [], _ => ([], [])
  | none :: rest, remaining =>
    let r := didRenderScan lastPass rest remaining
    (none :: r.1, r.2)
  | some decoderState :: rest, remaining =>
    if decoderState.mReadyForCollection then
      let r := didRenderScan lastPass rest remaining
      (some decoderState :: r.1, r.2)
    else
      let decoderFramesRemaining := decoderState.mTotalFrames - decoderState.mFramesRendered
      let framesFromThisDecoder := min decoderFramesRemaining lastPass
      let firedStarted := decoderState.mFramesRendered = 0
      let newFramesRendered := decoderState.mFramesRendered + framesFromThisDecoder
      let firedFinished := newFramesRendered = decoderState.mTotalFrames
      let decoderState' :=
        { decoderState with
            mFramesRendered := newFramesRendered
            mReadyForCollection := decoderState.mReadyForCollection || firedFinished }
      let entry : ScanEntry :=
        { ident := decoderState.mDecoder.ident
          framesRenderedBefore := decoderState.mFramesRendered
          totalFrames := decoderState.mTotalFrames
          give := framesFromThisDecoder
          remainingBefore := remaining
          firedStarted := firedStarted
          firedFinished := firedFinished }
      let remaining' := remaining - framesFromThisDecoder
      if remaining' = 0 then (some decoderState' :: rest, [entry])
      else
        let r := didRenderScan lastPass rest remaining'
        (some decoderState' :: r.1, entry :: r.2)

/-- Embedding of `AudioPlayer::DidRender` (lines 1543-1604), post-render invocation:
nothing happens when `mFramesRenderedLastPass` is 0; otherwise the scan runs
with `framesRemainingToDistribute` initialized to `mFramesRenderedLastPass`,
and afterwards, if no current decoder state remains, `Stop` is issued. -/
def DidRender (s : PlayerState) : PlayerState × List ScanEntry :=
  if s.mFramesRenderedLastPass = 0 then (s, [])
  else
    let r :=
      didRenderScan (s.mFramesRenderedLastPass : Int) s.mActiveDecoders
        (s.mFramesRenderedLastPass : Int)
    let s1 := { s with mActiveDecoders := r.1 }
    if GetCurrentDecoderState r.1 = none then (Stop s1, r.2) else (s1, r.2)

/-- Start of `AudioPlayer::FileReaderThreadEntry` (lines 1613-1657): pop the
queue's head decoder, build a `DecoderStateData` stamped with
`mNextDecoderStartingTimeStamp`, and install it into the first empty slot by
compare-and-swap (the slot table is modelled wide enough; with no empty slot
the source leaves the state uninstalled, modelled by appending).  With an
empty queue the worker aborts (the null check at line 1636). -/
def installFirstEmpty (decoderState : DecoderStateData) :
    List (Option DecoderStateData) → List (Option DecoderStateData)
  | [] => [some decoderState]
  | none :: slots => some decoderState :: slots
  | some occupied :: slots => some occupied :: installFirstEmpty decoderState slots

/-- Pop the queue head and install its fresh state (lines 1624-1655). -/
def workerStart (s : PlayerState) : PlayerState :=
  match s.mDecoderQueue with
  | [] => s
  | d :: rest =>
    let decoderState := DecoderStateData.create d s.mNextDecoderStartingTimeStamp
    { s with
        mDecoderQueue := rest
        mActiveDecoders := installFirstEmpty decoderState s.mActiveDecoders }

/-- The seek transit of the decode worker (lines 1689-1715), reached when
`mFrameToSeek` is not -1: capture the decoder's current frame, ask the
decoder to seek (`seekReply` is the external decoder's returned landed
frame), reset `mFrameToSeek` to -1 by compare-and-swap, and, unless the reply
is exactly -1, set the state's `mFramesRendered` to the reply, add
`reply - currentFrameBeforeSeeking` to the global `mFramesDecoded`, swap the
global `mFramesRendered` to `mFramesDecoded`, and reset the graph.  Returns
the updated decoder state, updated global counters, and events. -/
def seekTransit (seekReply : Int) (decoderState : DecoderStateData)
    (framesDecoded framesRendered : Int) :
    DecoderStateData × Int × Int × List Event :=
  let currentFrameBeforeSeeking := decoderState.mDecoder.currentFrame
  let newFrame := seekReply
  -- Modelled from the spec: the external decoder repositions to the landed
  -- frame when it reports one (nonnegative), and stays put on failure.
  let movedDecoder :=
    if 0 ≤ newFrame then { decoderState.mDecoder with currentFrame := newFrame }
    else decoderState.mDecoder
  let ds1 := { decoderState with mDecoder := movedDecoder, mFrameToSeek := -1 }
  if newFrame ≠ -1 then
    let framesSkipped := newFrame - currentFrameBeforeSeeking
    let ds2 := { ds1 with mFramesRendered := newFrame }
    let fd' := framesDecoded + framesSkipped
    (ds2, fd', fd', [Event.graphReset])
  else (ds1, framesDecoded, framesRendered, [])

/-- One iteration of the decode worker's ring-fill loop
(lines 1680-1781) for the state in slot `i`.  `seekReply` is the decoder's
`SeekToFrame` result (consulted only when a seek is pending), `readReply` its
`ReadAudio` result (0 signals end of stream).  If less than a write chunk of
ring space is free, the iteration does nothing (the worker then blocks on its
semaphore).  Otherwise: process a pending seek; capture
`startingFrameNumber`; fire decoding-started when it is 0; on a nonzero read
store into the ring (ring `Store` modelled as bookkeeping only) and advance
`mFramesDecoded`; on a zero read fire decoding-finished, clear
`mKeepDecoding`, correct `mTotalFrames` to `startingFrameNumber`, add it to
`mNextDecoderStartingTimeStamp`, and report whether a worker for the next
queued decoder is spawned.  Returns the state, the events, and the spawn
flag. -/
def workerIteration (i : Nat) (seekReply readReply : Int) (s : PlayerState) :
    PlayerState × List Event × Bool :=
  match s.mActiveDecoders.getD i none with
  | none => (s, [], false)
  | some decoderState =>
    let framesAvailableToWrite :=
      toUInt32m (ringBufferSizeFrames - (s.mFramesDecoded - s.mFramesRendered))
    if framesAvailableToWrite < toUInt32m ringBufferWriteChunkSizeFrames then (s, [], false)
    else
      let st :=
        if decoderState.mFrameToSeek ≠ -1 then
          seekTransit seekReply decoderState s.mFramesDecoded s.mFramesRendered
        else (decoderState, s.mFramesDecoded, s.mFramesRendered, [])
      let ds1 := st.1
      let fd1 := st.2.1
      let fr1 := st.2.2.1
      let seekEvents := st.2.2.2
      let startingFrameNumber := ds1.mDecoder.currentFrame
      let startEvents :=
        if startingFrameNumber = 0 then [Event.decodingStarted ds1.mDecoder.ident] else []
      if readReply ≠ 0 then
        -- store into the ring at startingFrameNumber + startTime, advance the counter,
        -- and the decoder advances its current frame by the frames produced
        let ds2 := { ds1 with
                       mDecoder := { ds1.mDecoder with
                                       currentFrame := ds1.mDecoder.currentFrame + readReply } }
        let s' := { s with
                      mFramesDecoded := fd1 + readReply
                      mFramesRendered := fr1
                      mActiveDecoders := s.mActiveDecoders.set i (some ds2) }
        (s', seekEvents ++ startEvents, false)
      else
        let ds2 := { ds1 with
                       mKeepDecoding := false
                       mTotalFrames := startingFrameNumber }
        let spawned := s.mDecoderQueue ≠ []
        let s' := { s with
                      mFramesDecoded := fd1
                      mFramesRendered := fr1
                      mActiveDecoders := s.mActiveDecoders.set i (some ds2)
                      mNextDecoderStartingTimeStamp :=
                        s.mNextDecoderStartingTimeStamp + startingFrameNumber
                      eosTotalsThisSession :=
                        s.eosTotalsThisSession ++ [startingFrameNumber] }
        (s', seekEvents ++ startEvents ++ [Event.decodingFinished ds1.mDecoder.ident], spawned)

/-- One sweep of `AudioPlayer::CollectorThreadEntry` (lines 1799-1826):
compare-and-swap every ready-for-collection slot back to empty and free the
state. -/
def collectorSweep (s : PlayerState) : PlayerState :=
  { s with
      mActiveDecoders :=
        s.mActiveDecoders.map
          (fun slot =>
            match slot with
            | none => none
            | some decoderState =>
              if decoderState.mReadyForCollection then none else some decoderState) }

/-- The trivially succeeding ring fetch used by the reachability relation:
in normal operation `CARingBuffer::Fetch` returns the intersection with the
valid window (zeroing the rest) and no error (spec section 4.1). -/
def fetchOk : BufferList → Nat → Int → Option BufferList :=
  fun buffers _ _ => some buffers

/-- States reachable by interleaving the pipeline's atomic steps from a fresh
player.  Controller calls can happen at any time; the render callback and the
post-render accounting run only while the graph is running; a worker
iteration requires an installed state; decoder replies are arbitrary within
the decoder interface (`ReadAudio` produces between 0 and the requested 2048
frames). -/
inductive Reachable : PlayerState → Prop where
  | init (fmt : AudioFormat) (slots : Nat) : Reachable (initialState fmt slots)
  | play (d : AudioDecoder) (s : PlayerState) :
      Reachable s → Reachable (PlayDecoder d s).2
  | enqueue (d : AudioDecoder) (s : PlayerState) :
      Reachable s → Reachable (Enqueue d s).2
  | playNoArg (s : PlayerState) : Reachable s → Reachable (PlayNoArg s)
  | pause (s : PlayerState) : Reachable s → Reachable (Pause s)
  | stop (s : PlayerState) : Reachable s → Reachable (Stop s)
  | workerStart (s : PlayerState) : Reachable s → Reachable (workerStart s)
  | workerIteration (i : Nat) (seekReply readReply : Int) (s : PlayerState)
      (hread : 0 ≤ readReply ∧ readReply ≤ 2048) :
      Reachable s → Reachable (workerIteration i seekReply readReply s).1
  | render (inNumberFrames : Nat) (s : PlayerState) (hrun : s.graphRunning = true) :
      Reachable s → Reachable (Render fetchOk inNumberFrames [] s).1
  | didRender (s : PlayerState) (hrun : s.graphRunning = true) :
      Reachable s → Reachable (DidRender s).1
  | collect (s : PlayerState) : Reachable s → Reachable (collectorSweep s)

/-- Sum of `mFramesRendered` over the non-collected states of the slot table
(spec invariant 8.4's left-hand side). -/
def sumNonCollectedFramesRendered (slots : List (Option DecoderStateData)) : Int :=
  slots.foldl
    (fun acc slot =>
      match slot with
      | none => acc
      | some decoderState =>
        if decoderState.mReadyForCollection then acc
        else acc + decoderState.mFramesRendered)
    0

/-! ## Theorems -/

lemma toUInt32m_eq_toNat {x : Int} (h0 : 0 ≤ x) (h1 : x < 2 ^ 32) :
    toUInt32m x = x.toNat := by
  unfold toUInt32m
  rw [Int.emod_eq_of_lt h0 (by omega)]

lemma toUInt32m_zero : toUInt32m 0 = 0 := rfl

/-- Claim C4. Whenever the render callback is invoked with
`framesDecoded − framesRendered = 0`, it raises the OutputIsSilence flag,
writes `requestedFrames * sizeof(float)` zero bytes into each output buffer
(setting each buffer's byte-size field to that count), leaves the player
state — in particular the global `framesRendered` counter — unchanged, and
returns success. -/
theorem render_silence_when_ring_empty
    (fetch : BufferList → Nat → Int → Option BufferList)
    (inNumberFrames : Nat) (ioData : BufferList) (s : PlayerState)
    (h : s.mFramesDecoded - s.mFramesRendered = 0) :
    Render fetch inNumberFrames ioData s =
      (s,
       ioData.map
         (fun b =>
           { mData := List.replicate inNumberFrames 0 ++ b.mData.drop inNumberFrames
             mDataByteSize := inNumberFrames * 4 }),
       true, HostStatus.noErr) ∧
    (Render fetch inNumberFrames ioData s).1.mFramesRendered = s.mFramesRendered ∧
    ∀ b ∈ (Render fetch inNumberFrames ioData s).2.1,
      b.mDataByteSize = inNumberFrames * 4 ∧
      b.mData.take inNumberFrames = List.replicate inNumberFrames 0 := by
  have hmain : Render fetch inNumberFrames ioData s =
      (s,
       ioData.map
         (fun b =>
           { mData := List.replicate inNumberFrames 0 ++ b.mData.drop inNumberFrames
             mDataByteSize := inNumberFrames * 4 }),
       true, HostStatus.noErr) := by
    unfold Render
    rw [h, toUInt32m_zero]
    simp
  refine ⟨hmain, by rw [hmain], ?_⟩
  rw [hmain]
  intro b hb
  simp only [List.mem_map] at hb
  obtain ⟨a, _, rfl⟩ := hb
  constructor
  · rfl
  · rw [List.take_append_of_le_length (by simp)]
    simp

theorem render_silence_when_ring_empty_witness :
    ((initialState ⟨44100, 2⟩ 8).mFramesDecoded -
       (initialState ⟨44100, 2⟩ 8).mFramesRendered = 0) ∧
    Render fetchOk 4 [⟨List.replicate 4 7, 0⟩] (initialState ⟨44100, 2⟩ 8) =
      (initialState ⟨44100, 2⟩ 8,
       [⟨List.replicate 4 0, 16⟩], true, HostStatus.noErr) := by
  refine ⟨rfl, ?_⟩
  have h := render_silence_when_ring_empty fetchOk 4 [⟨List.replicate 4 7, 0⟩]
    (initialState ⟨44100, 2⟩ 8) rfl
  rw [h.1]
  decide

/-- Claim C5. Whenever the render callback is invoked with
`available = framesDecoded − framesRendered > 0` (and `available` within the
ring capacity, spec invariant 8.2), it fetches
`take = min(available, requestedFrames)` frames from the ring starting at
absolute index `framesRendered`; on a successful fetch it records `take` in
`framesRenderedLastPass`, adds exactly `take` to the global `framesRendered`,
and, when `take < requestedFrames`, zeroes the tail `[take, requestedFrames)`
of each output buffer and grows each buffer's byte-size field by
`(requestedFrames − take) * sizeof(float)`; on a ring error it returns a
generic I/O failure with the player state unchanged. -/
theorem render_positive_available
    (fetch : BufferList → Nat → Int → Option BufferList)
    (inNumberFrames : Nat) (ioData : BufferList) (s : PlayerState)
    (h0 : 0 < s.mFramesDecoded - s.mFramesRendered)
    (h1 : s.mFramesDecoded - s.mFramesRendered ≤ ringBufferSizeFrames) :
    (fetch ioData (min (s.mFramesDecoded - s.mFramesRendered).toNat inNumberFrames)
        s.mFramesRendered = none →
      Render fetch inNumberFrames ioData s = (s, ioData, false, HostStatus.ioErr)) ∧
    (∀ fetched,
      fetch ioData (min (s.mFramesDecoded - s.mFramesRendered).toNat inNumberFrames)
          s.mFramesRendered = some fetched →
      (Render fetch inNumberFrames ioData s).1 =
        { s with
            mFramesRenderedLastPass :=
              min (s.mFramesDecoded - s.mFramesRendered).toNat inNumberFrames
            mFramesRendered :=
              s.mFramesRendered +
                ((min (s.mFramesDecoded - s.mFramesRendered).toNat inNumberFrames : Nat) :
                  Int) } ∧
      (Render fetch inNumberFrames ioData s).2.2 = (false, HostStatus.noErr) ∧
      (Render fetch inNumberFrames ioData s).2.1 =
        (if min (s.mFramesDecoded - s.mFramesRendered).toNat inNumberFrames ≠
            inNumberFrames then
           fetched.map
             (fun b =>
               { mData :=
                   b.mData.take
                     (min (s.mFramesDecoded - s.mFramesRendered).toNat inNumberFrames) ++
                   List.replicate
                     (inNumberFrames -
                       min (s.mFramesDecoded - s.mFramesRendered).toNat inNumberFrames) 0 ++
                   b.mData.drop inNumberFrames
                 mDataByteSize :=
                   b.mDataByteSize +
                     (inNumberFrames -
                       min (s.mFramesDecoded - s.mFramesRendered).toNat inNumberFrames) * 4 })
         else fetched)) := by
  have hcap : s.mFramesDecoded - s.mFramesRendered < 2 ^ 32 := by
    have : ringBufferSizeFrames < 2 ^ 32 := by decide
    omega
  have havail : toUInt32m (s.mFramesDecoded - s.mFramesRendered) =
      (s.mFramesDecoded - s.mFramesRendered).toNat :=
    toUInt32m_eq_toNat (le_of_lt h0) hcap
  have hne : (s.mFramesDecoded - s.mFramesRendered).toNat ≠ 0 := by omega
  constructor
  · intro hfetch
    unfold Render
    rw [havail, if_neg hne]
    simp only [hfetch]
  · intro fetched hfetch
    unfold Render
    rw [havail, if_neg hne]
    simp only [hfetch]
    by_cases heq :
        min (s.mFramesDecoded - s.mFramesRendered).toNat inNumberFrames = inNumberFrames
    · rw [if_neg (by simpa using heq), if_neg (by simpa using heq)]
      exact ⟨rfl, rfl, rfl⟩
    · rw [if_pos heq, if_pos heq]
      exact ⟨rfl, rfl, rfl⟩

theorem render_positive_available_witness :
    (0 < (10 : Int) - 0 ∧ (10 : Int) - 0 ≤ ringBufferSizeFrames) ∧
    (Render fetchOk 16 [⟨List.replicate 20 7, 0⟩]
        { initialState ⟨44100, 2⟩ 8 with mFramesDecoded := 10 }).1 =
      { initialState ⟨44100, 2⟩ 8 with
          mFramesDecoded := 10
          mFramesRenderedLastPass := 10
          mFramesRendered := 10 } ∧
    (Render fetchOk 16 [⟨List.replicate 20 7, 0⟩]
        { initialState ⟨44100, 2⟩ 8 with mFramesDecoded := 10 }).2.1 =
      [⟨List.replicate 10 7 ++ List.replicate 6 0 ++ List.replicate 4 7, 24⟩] := by
  have h := render_positive_available fetchOk 16 [⟨List.replicate 20 7, 0⟩]
    { initialState ⟨44100, 2⟩ 8 with mFramesDecoded := 10 }
    (by decide) (by decide)
  obtain ⟨-, h2⟩ := h
  have h3 := h2 [⟨List.replicate 20 7, 0⟩] rfl
  refine ⟨⟨by decide, by decide⟩, ?_, ?_⟩
  · rw [h3.1]; decide
  · rw [h3.2.2]; decide

/-- Claim C8. With a decoder active or a non-empty queue, `Enqueue` rejects a
decoder whose sample rate or channel count differs from the live graph
format, leaving the whole player state (queue, active decoders, counters)
unchanged and returning failure (so the caller retains the decoder, which is
stored nowhere); when both match it pushes the decoder at the back of the
queue and returns success; with nothing active and an empty queue it degrades
to `Play(decoder)`. -/
theorem enqueue_format_admission (d : AudioDecoder) (s : PlayerState) :
    (¬ (GetCurrentDecoderState s.mActiveDecoders = none ∧ s.mDecoderQueue = []) →
      (¬ (d.format.mSampleRate = s.graphFormat.mSampleRate ∧
            d.format.mChannelsPerFrame = s.graphFormat.mChannelsPerFrame) →
        Enqueue d s = (false, s)) ∧
      ((d.format.mSampleRate = s.graphFormat.mSampleRate ∧
          d.format.mChannelsPerFrame = s.graphFormat.mChannelsPerFrame) →
        Enqueue d s = (true, { s with mDecoderQueue := s.mDecoderQueue ++ [d] }))) ∧
    ((GetCurrentDecoderState s.mActiveDecoders = none ∧ s.mDecoderQueue = []) →
      Enqueue d s = PlayDecoder d s) := by
  constructor
  · intro hbusy
    constructor
    · intro hmismatch
      unfold Enqueue
      rw [if_neg hbusy, if_neg hmismatch]
    · intro hmatch
      unfold Enqueue
      rw [if_neg hbusy, if_pos hmatch]
  · intro hidle
    unfold Enqueue
    rw [if_pos hidle]

theorem enqueue_format_admission_witness :
    (¬ (GetCurrentDecoderState
          { initialState ⟨44100, 2⟩ 8 with
              mDecoderQueue := [⟨1, 600, 0, ⟨44100, 2⟩⟩] }.mActiveDecoders = none ∧
        { initialState ⟨44100, 2⟩ 8 with
            mDecoderQueue := [⟨1, 600, 0, ⟨44100, 2⟩⟩] }.mDecoderQueue = [])) ∧
    Enqueue ⟨2, 500, 0, ⟨48000, 2⟩⟩
        { initialState ⟨44100, 2⟩ 8 with mDecoderQueue := [⟨1, 600, 0, ⟨44100, 2⟩⟩] } =
      (false,
       { initialState ⟨44100, 2⟩ 8 with mDecoderQueue := [⟨1, 600, 0, ⟨44100, 2⟩⟩] }) ∧
    Enqueue ⟨3, 500, 0, ⟨44100, 2⟩⟩
        { initialState ⟨44100, 2⟩ 8 with mDecoderQueue := [⟨1, 600, 0, ⟨44100, 2⟩⟩] } =
      (true,
       { initialState ⟨44100, 2⟩ 8 with
           mDecoderQueue := [⟨1, 600, 0, ⟨44100, 2⟩⟩, ⟨3, 500, 0, ⟨44100, 2⟩⟩] }) := by
  refine ⟨by decide, ?_, ?_⟩
  · rw [((enqueue_format_admission ⟨2, 500, 0, ⟨48000, 2⟩⟩
        { initialState ⟨44100, 2⟩ 8 with
            mDecoderQueue := [⟨1, 600, 0, ⟨44100, 2⟩⟩] }).1 (by decide)).1 (by decide)]
  · rw [((enqueue_format_admission ⟨3, 500, 0, ⟨44100, 2⟩⟩
        { initialState ⟨44100, 2⟩ 8 with
            mDecoderQueue := [⟨1, 600, 0, ⟨44100, 2⟩⟩] }).1 (by decide)).2 (by decide)]
    decide

/-- Reduction rules for one `GetCurrentDecoderState` scan step. -/
lemma currentDecoderStep_none (acc : Option DecoderStateData) :
    currentDecoderStep acc none = acc := rfl

lemma currentDecoderStep_ready (acc : Option DecoderStateData) (d : DecoderStateData)
    (h : d.mReadyForCollection = true) : currentDecoderStep acc (some d) = acc := by
  simp [currentDecoderStep, h]

lemma currentDecoderStep_live_none (d : DecoderStateData)
    (h : d.mReadyForCollection = false) :
    currentDecoderStep none (some d) = some d := by
  simp [currentDecoderStep, h]

lemma currentDecoderStep_live_some (a d : DecoderStateData)
    (h : d.mReadyForCollection = false) :
    currentDecoderStep (some a) (some d) =
      if d.mTimeStamp < a.mTimeStamp then some d else some a := by
  simp [currentDecoderStep, h]

/-- Characterization of the `GetCurrentDecoderState` left fold with an
arbitrary incumbent: a `none` result means the incumbent was `none` and every
slot entry is collected; a `some r` result is either the incumbent or a
non-collected slot entry, its timestamp is at most the incumbent's, and it is
at most the timestamp of every non-collected slot entry. -/
lemma currentDecoderFold_spec (slots : List (Option DecoderStateData)) :
    ∀ acc : Option DecoderStateData,
      (slots.foldl currentDecoderStep acc = none →
        acc = none ∧
        ∀ ds : DecoderStateData, some ds ∈ slots → ds.mReadyForCollection = true) ∧
      (∀ r : DecoderStateData, slots.foldl currentDecoderStep acc = some r →
        (acc = some r ∨ (some r ∈ slots ∧ r.mReadyForCollection = false)) ∧
        (∀ a : DecoderStateData, acc = some a → r.mTimeStamp ≤ a.mTimeStamp) ∧
        (∀ ds : DecoderStateData, some ds ∈ slots → ds.mReadyForCollection = false →
          r.mTimeStamp ≤ ds.mTimeStamp)) := by
  induction slots with
  | nil =>
    intro acc
    refine ⟨fun h => ⟨h, by simp⟩, fun r hr => ?_⟩
    simp only [List.foldl_nil] at hr
    exact ⟨Or.inl hr, fun a ha => by rw [hr] at ha; cases ha; exact le_refl _, by simp⟩
  | cons slot rest ih =>
    intro acc
    have step : (slot :: rest).foldl currentDecoderStep acc =
        rest.foldl currentDecoderStep (currentDecoderStep acc slot) := rfl
    match slot with
    | none =>
      have hstep : currentDecoderStep acc none = acc := currentDecoderStep_none acc
      constructor
      · intro h
        rw [step, hstep] at h
        obtain ⟨h1, h2⟩ := (ih acc).1 h
        refine ⟨h1, fun ds hds => ?_⟩
        rcases List.mem_cons.mp hds with h3 | h3
        · exact absurd h3 (by simp)
        · exact h2 ds h3
      · intro r hr
        rw [step, hstep] at hr
        obtain ⟨horigin, hacc, hmin⟩ := (ih acc).2 r hr
        refine ⟨?_, hacc, fun ds hds hlive => ?_⟩
        · rcases horigin with h1 | ⟨h1, h2⟩
          · exact Or.inl h1
          · exact Or.inr ⟨List.mem_cons_of_mem _ h1, h2⟩
        · rcases List.mem_cons.mp hds with h3 | h3
          · exact absurd h3 (by simp)
          · exact hmin ds h3 hlive
    | some d =>
      by_cases hready : d.mReadyForCollection = true
      · have hstep : currentDecoderStep acc (some d) = acc :=
          currentDecoderStep_ready acc d hready
        constructor
        · intro h
          rw [step, hstep] at h
          obtain ⟨h1, h2⟩ := (ih acc).1 h
          refine ⟨h1, fun ds hds => ?_⟩
          rcases List.mem_cons.mp hds with h3 | h3
          · cases h3; exact hready
          · exact h2 ds h3
        · intro r hr
          rw [step, hstep] at hr
          obtain ⟨horigin, hacc, hmin⟩ := (ih acc).2 r hr
          refine ⟨?_, hacc, fun ds hds hlive => ?_⟩
          · rcases horigin with h1 | ⟨h1, h2⟩
            · exact Or.inl h1
            · exact Or.inr ⟨List.mem_cons_of_mem _ h1, h2⟩
          · rcases List.mem_cons.mp hds with h3 | h3
            · cases h3; rw [hready] at hlive; cases hlive
            · exact hmin ds h3 hlive
      · have hreadyf : d.mReadyForCollection = false := by
          simpa using hready
        match acc with
        | none =>
          have hstep : currentDecoderStep none (some d) = some d :=
            currentDecoderStep_live_none d hreadyf
          constructor
          · intro h
            rw [step, hstep] at h
            obtain ⟨h1, -⟩ := (ih (some d)).1 h
            cases h1
          · intro r hr
            rw [step, hstep] at hr
            obtain ⟨horigin, hacc, hmin⟩ := (ih (some d)).2 r hr
            have hrd : r.mTimeStamp ≤ d.mTimeStamp := hacc d rfl
            refine ⟨?_, by simp, fun ds hds hlive => ?_⟩
            · rcases horigin with h1 | ⟨h1, h2⟩
              · cases h1
                exact Or.inr ⟨List.mem_cons_self _ _, hreadyf⟩
              · exact Or.inr ⟨List.mem_cons_of_mem _ h1, h2⟩
            · rcases List.mem_cons.mp hds with h3 | h3
              · cases h3; exact hrd
              · exact hmin ds h3 hlive
        | some a =>
          by_cases hlt : d.mTimeStamp < a.mTimeStamp
          · have hstep : currentDecoderStep (some a) (some d) = some d := by
              rw [currentDecoderStep_live_some a d hreadyf, if_pos hlt]
            constructor
            · intro h
              rw [step, hstep] at h
              obtain ⟨h1, -⟩ := (ih (some d)).1 h
              cases h1
            · intro r hr
              rw [step, hstep] at hr
              obtain ⟨horigin, hacc, hmin⟩ := (ih (some d)).2 r hr
              have hrd : r.mTimeStamp ≤ d.mTimeStamp := hacc d rfl
              refine ⟨?_, ?_, fun ds hds hlive => ?_⟩
              · rcases horigin with h1 | ⟨h1, h2⟩
                · cases h1
                  exact Or.inr ⟨List.mem_cons_self _ _, hreadyf⟩
                · exact Or.inr ⟨List.mem_cons_of_mem _ h1, h2⟩
              · intro x hx
                cases hx
                exact le_of_lt (lt_of_le_of_lt hrd hlt)
              · rcases List.mem_cons.mp hds with h3 | h3
                · cases h3; exact hrd
                · exact hmin ds h3 hlive
          · have hstep : currentDecoderStep (some a) (some d) = some a := by
              rw [currentDecoderStep_live_some a d hreadyf, if_neg hlt]
            constructor
            · intro h
              rw [step, hstep] at h
              obtain ⟨h1, -⟩ := (ih (some a)).1 h
              cases h1
            · intro r hr
              rw [step, hstep] at hr
              obtain ⟨horigin, hacc, hmin⟩ := (ih (some a)).2 r hr
              have hra : r.mTimeStamp ≤ a.mTimeStamp := hacc a rfl
              refine ⟨?_, ?_, fun ds hds hlive => ?_⟩
              · rcases horigin with h1 | ⟨h1, h2⟩
                · exact Or.inl h1
                · exact Or.inr ⟨List.mem_cons_of_mem _ h1, h2⟩
              · intro x hx
                cases hx
                exact hra
              · rcases List.mem_cons.mp hds with h3 | h3
                · cases h3
                  exact le_trans hra (le_of_not_lt hlt)
                · exact hmin ds h3 hlive

/-- Claim C10. `GetCurrentFrame` resolves the current decoder as the
non-collected table entry with the smallest timestamp: when no live
(non-collected) entry exists it returns -1; when the current decoder state
exists it is a live entry of minimal timestamp, and the returned frame is its
pending seek target when one is set (`mFrameToSeek ≠ -1`) and its
`mFramesRendered` otherwise. -/
theorem currentFrame_resolution (s : PlayerState) :
    (GetCurrentDecoderState s.mActiveDecoders = none →
      GetCurrentFrame s = -1 ∧
      ∀ ds : DecoderStateData, some ds ∈ s.mActiveDecoders →
        ds.mReadyForCollection = true) ∧
    (∀ r : DecoderStateData, GetCurrentDecoderState s.mActiveDecoders = some r →
      some r ∈ s.mActiveDecoders ∧ r.mReadyForCollection = false ∧
      (∀ ds : DecoderStateData, some ds ∈ s.mActiveDecoders →
        ds.mReadyForCollection = false → r.mTimeStamp ≤ ds.mTimeStamp) ∧
      GetCurrentFrame s =
        (if r.mFrameToSeek = -1 then r.mFramesRendered else r.mFrameToSeek)) := by
  have hspec := currentDecoderFold_spec s.mActiveDecoders none
  constructor
  · intro hnone
    refine ⟨?_, (hspec.1 hnone).2⟩
    unfold GetCurrentFrame
    rw [hnone]
  · intro r hr
    obtain ⟨horigin, -, hmin⟩ := hspec.2 r hr
    rcases horigin with h1 | ⟨h1, h2⟩
    · cases h1
    · refine ⟨h1, h2, hmin, ?_⟩
      unfold GetCurrentFrame
      rw [hr]

theorem currentFrame_resolution_witness :
    (GetCurrentDecoderState [] = none ∧ GetCurrentFrame (initialState ⟨44100, 2⟩ 0) = -1) ∧
    GetCurrentFrame
        { initialState ⟨44100, 2⟩ 0 with
            mActiveDecoders :=
              [some { mDecoder := ⟨1, 600, 0, ⟨44100, 2⟩⟩, mTimeStamp := 0,
                      mTotalFrames := 600, mFramesRendered := 250, mFrameToSeek := 42,
                      mKeepDecoding := true, mReadyForCollection := false }] } = 42 ∧
    GetCurrentFrame
        { initialState ⟨44100, 2⟩ 0 with
            mActiveDecoders :=
              [some { mDecoder := ⟨1, 600, 0, ⟨44100, 2⟩⟩, mTimeStamp := 0,
                      mTotalFrames := 600, mFramesRendered := 250, mFrameToSeek := -1,
                      mKeepDecoding := true, mReadyForCollection := false }] } = 250 := by
  refine ⟨⟨rfl, ?_⟩, ?_, ?_⟩
  · exact ((currentFrame_resolution (initialState ⟨44100, 2⟩ 0)).1 rfl).1
  · rw [((currentFrame_resolution
        { initialState ⟨44100, 2⟩ 0 with
            mActiveDecoders :=
              [some { mDecoder := ⟨1, 600, 0, ⟨44100, 2⟩⟩, mTimeStamp := 0,
                      mTotalFrames := 600, mFramesRendered := 250, mFrameToSeek := 42,
                      mKeepDecoding := true, mReadyForCollection := false }] }).2
        { mDecoder := ⟨1, 600, 0, ⟨44100, 2⟩⟩, mTimeStamp := 0,
          mTotalFrames := 600, mFramesRendered := 250, mFrameToSeek := 42,
          mKeepDecoding := true, mReadyForCollection := false } rfl).2.2.2]
    decide
  · rw [((currentFrame_resolution
        { initialState ⟨44100, 2⟩ 0 with
            mActiveDecoders :=
              [some { mDecoder := ⟨1, 600, 0, ⟨44100, 2⟩⟩, mTimeStamp := 0,
                      mTotalFrames := 600, mFramesRendered := 250, mFrameToSeek := -1,
                      mKeepDecoding := true, mReadyForCollection := false }] }).2
        { mDecoder := ⟨1, 600, 0, ⟨44100, 2⟩⟩, mTimeStamp := 0,
          mTotalFrames := 600, mFramesRendered := 250, mFrameToSeek := -1,
          mKeepDecoding := true, mReadyForCollection := false } rfl).2.2.2]
    decide

/-- A stereo 44100 Hz format used by the concrete scenarios. -/
def fmt44 : AudioFormat := ⟨44100, 2⟩

/-- A 600-frame decoder. -/
def decoder600 : AudioDecoder := ⟨1, 600, 0, fmt44⟩

/-- A 1000-frame decoder. -/
def decoder1000 : AudioDecoder := ⟨2, 1000, 0, fmt44⟩

/-- An empty (0-frame) decoder. -/
def decoderEmpty : AudioDecoder := ⟨3, 0, 0, fmt44⟩

/-- A reachable state obtained by playing the 600-frame decoder, starting the
graph, spawning its worker, decoding the whole file in one chunk, and then
pausing: the graph is stopped while `mFramesDecoded = 600`. -/
def pausedMidPlayback : PlayerState :=
  Pause
    (workerIteration 0 0 600
      (workerStart
        (PlayNoArg (PlayDecoder decoder600 (initialState fmt44 8)).2))).1

lemma pausedMidPlayback_reachable : Reachable pausedMidPlayback :=
  Reachable.pause _
    (Reachable.workerIteration 0 0 600 _ (by decide)
      (Reachable.workerStart _
        (Reachable.playNoArg _
          (Reachable.play decoder600 _ (Reachable.init fmt44 8)))))

/-- Claim C3, counterexample. The claim says `stop()` zeroes the counters for
every player state; but `Stop` returns immediately when the graph is not
running (line 354), so on a reachable paused state with
`mFramesDecoded = 600` it zeroes nothing. -/
theorem stop_counterexample_paused_state :
    Reachable pausedMidPlayback ∧
    pausedMidPlayback.graphRunning = false ∧
    pausedMidPlayback.mFramesDecoded = 600 ∧
    Stop pausedMidPlayback = pausedMidPlayback ∧
    (Stop pausedMidPlayback).mFramesDecoded ≠ 0 :=
  ⟨pausedMidPlayback_reachable, by decide, by decide, by decide, by decide⟩

/-- Claim C3, amended. When the player is playing, `stop()` zeroes
`framesDecoded`, `framesRendered` and `nextDecoderStartingTimeStamp`, and
clears `keepDecoding` and sets `readyForCollection` on every active decoder
state; when the player is not playing, `stop()` changes nothing. -/
theorem stop_zeroes_when_playing (s : PlayerState) :
    (s.graphRunning = true →
      (Stop s).mFramesDecoded = 0 ∧
      (Stop s).mFramesRendered = 0 ∧
      (Stop s).mNextDecoderStartingTimeStamp = 0 ∧
      ∀ slot ∈ (Stop s).mActiveDecoders, ∀ ds : DecoderStateData, slot = some ds →
        ds.mKeepDecoding = false ∧ ds.mReadyForCollection = true) ∧
    (s.graphRunning = false → Stop s = s) := by
  constructor
  · intro hrun
    have hnot : ¬ ¬ s.graphRunning = true := by simp [hrun]
    unfold Stop
    rw [if_neg hnot]
    refine ⟨rfl, rfl, rfl, ?_⟩
    intro slot hslot ds hds
    simp only [StopActiveDecoders, List.mem_map] at hslot
    obtain ⟨orig, -, horig⟩ := hslot
    match orig, horig with
    | none, horig => rw [← horig] at hds; cases hds
    | some d, horig =>
      rw [← horig] at hds
      cases hds
      exact ⟨rfl, rfl⟩
  · intro hstopped
    unfold Stop
    rw [if_pos (by simp [hstopped])]

theorem stop_zeroes_when_playing_witness :
    (PlayNoArg pausedMidPlayback).graphRunning = true ∧
    (Stop (PlayNoArg pausedMidPlayback)).mFramesDecoded = 0 ∧
    (Stop (PlayNoArg pausedMidPlayback)).mFramesRendered = 0 ∧
    (Stop (PlayNoArg pausedMidPlayback)).mNextDecoderStartingTimeStamp = 0 := by
  have h := (stop_zeroes_when_playing (PlayNoArg pausedMidPlayback)).1 (by decide)
  exact ⟨by decide, h.1, h.2.1, h.2.2.1⟩

/-- Decoder state with a pending seek to frame 5000 while the decoder sits at
frame 20000. -/
def pendingSeekState : DecoderStateData :=
  { mDecoder := ⟨7, 30000, 20000, fmt44⟩
    mTimeStamp := 0
    mTotalFrames := 30000
    mFramesRendered := 20000
    mFrameToSeek := 5000
    mKeepDecoding := true
    mReadyForCollection := false }

/-- Claim C7, counterexample. The claim says a negative seek reply leaves all
counters untouched; but the worker tests `newFrame != -1` (line 1702), so the
reply -2 — negative, hence a failure per the decoder interface — is treated
as success: the state's `framesRendered` becomes -2 and the global counters
move. -/
theorem seek_negative_reply_counterexample :
    ((-2 : Int) < 0) ∧
    pendingSeekState.mFrameToSeek ≠ -1 ∧
    (seekTransit (-2) pendingSeekState 20000 20000).1.mFramesRendered = -2 ∧
    (seekTransit (-2) pendingSeekState 20000 20000).1.mFramesRendered ≠
      pendingSeekState.mFramesRendered ∧
    (seekTransit (-2) pendingSeekState 20000 20000).2.1 = -2 ∧
    (seekTransit (-2) pendingSeekState 20000 20000).2.1 ≠ 20000 := by
  decide

/-- Claim C7, amended. For every pending seek processed by the decode worker:
if the decoder's reply is exactly -1, the counters are untouched and only
`frameToSeek` is reset to -1; any other reply `new` (including other negative
values) is treated as a successful landing: the state's `framesRendered` is
set to `new`, `new − cur` is added to the global `framesDecoded`, the global
`framesRendered` is set equal to the new `framesDecoded`, and the downstream
chain is reset.  In both cases `frameToSeek` ends at -1. -/
theorem seek_transit_updates (seekReply : Int) (ds : DecoderStateData)
    (framesDecoded framesRendered : Int) (hpending : ds.mFrameToSeek ≠ -1) :
    (seekReply = -1 →
      seekTransit seekReply ds framesDecoded framesRendered =
        ({ ds with mFrameToSeek := -1 }, framesDecoded, framesRendered, [])) ∧
    (seekReply ≠ -1 →
      seekTransit seekReply ds framesDecoded framesRendered =
        ({ ds with
             mDecoder :=
               if 0 ≤ seekReply then { ds.mDecoder with currentFrame := seekReply }
               else ds.mDecoder
             mFrameToSeek := -1
             mFramesRendered := seekReply },
         framesDecoded + (seekReply - ds.mDecoder.currentFrame),
         framesDecoded + (seekReply - ds.mDecoder.currentFrame),
         [Event.graphReset])) := by
  constructor
  · intro h
    subst h
    unfold seekTransit
    rw [if_neg (by norm_num), if_neg (by simp)]
  · intro h
    unfold seekTransit
    rw [if_pos h]

theorem seek_transit_updates_witness :
    pendingSeekState.mFrameToSeek ≠ -1 ∧
    seekTransit 5000 pendingSeekState 20000 20000 =
      ({ pendingSeekState with
           mDecoder := ⟨7, 30000, 5000, fmt44⟩
           mFrameToSeek := -1
           mFramesRendered := 5000 },
       5000, 5000, [Event.graphReset]) := by
  refine ⟨by decide, ?_⟩
  rw [(seek_transit_updates 5000 pendingSeekState 20000 20000 (by decide)).2 (by decide)]
  decide

/-- A reachable state: an empty (0-frame) decoder and a 1000-frame decoder
have both been fully decoded, and one 512-frame render pass has completed but
its post-render accounting has not yet run. -/
def emptyDecoderPrePass : PlayerState :=
  (Render fetchOk 512 []
    (workerIteration 1 0 1000
      (workerStart
        (workerIteration 0 0 0
          (workerStart
            (PlayNoArg
              (Enqueue decoder1000
                (PlayDecoder decoderEmpty (initialState fmt44 8)).2).2))).1)).1).1

lemma emptyDecoderPrePass_reachable : Reachable emptyDecoderPrePass :=
  Reachable.render 512 _ (by decide)
    (Reachable.workerIteration 1 0 1000 _ (by decide)
      (Reachable.workerStart _
        (Reachable.workerIteration 0 0 0 _ (by decide)
          (Reachable.workerStart _
            (Reachable.playNoArg _
              (Reachable.enqueue decoder1000 _
                (Reachable.play decoderEmpty _ (Reachable.init fmt44 8))))))))

/-- Claim C9, counterexample. In the post-render accounting after that pass,
the empty decoder's state is visited with `framesRendered = 0` and receives
`give = 0` frames, yet its rendering-started notification fires — the code
(line 1579) tests only `framesRendered == 0`, never `give > 0`, refuting the
claimed "if and only if". -/
theorem rendering_started_zero_give_counterexample :
    Reachable emptyDecoderPrePass ∧
    ((DidRender emptyDecoderPrePass).2.getD 0 default).framesRenderedBefore = 0 ∧
    ((DidRender emptyDecoderPrePass).2.getD 0 default).give = 0 ∧
    ((DidRender emptyDecoderPrePass).2.getD 0 default).firedStarted = true ∧
    ¬ (((DidRender emptyDecoderPrePass).2.getD 0 default).firedStarted = true ↔
        (((DidRender emptyDecoderPrePass).2.getD 0 default).framesRenderedBefore = 0 ∧
         0 < ((DidRender emptyDecoderPrePass).2.getD 0 default).give)) :=
  ⟨emptyDecoderPrePass_reachable, by decide, by decide, by decide, by decide⟩

/-- Claim C9, amended. During post-render accounting, a visited decoder
state's rendering-started notification fires if and only if its
`framesRendered` was 0 at the time it is visited (regardless of the number of
frames attributed to it). -/
theorem rendering_started_iff_zero (lastPass : Int) :
    ∀ (slots : List (Option DecoderStateData)) (remaining : Int) (e : ScanEntry),
      e ∈ (didRenderScan lastPass slots remaining).2 →
      (e.firedStarted = true ↔ e.framesRenderedBefore = 0) := by
  intro slots
  induction slots with
  | nil =>
    intro remaining e he
    simp [didRenderScan] at he
  | cons slot rest ih =>
    intro remaining e he
    match slot with
    | none =>
      simp only [didRenderScan] at he
      exact ih remaining e he
    | some decoderState =>
      by_cases hready : decoderState.mReadyForCollection = true
      · simp only [didRenderScan, if_pos hready] at he
        exact ih remaining e he
      · simp only [didRenderScan, if_neg hready] at he
        by_cases hrem :
            remaining -
              min (decoderState.mTotalFrames - decoderState.mFramesRendered) lastPass = 0
        · rw [if_pos hrem] at he
          simp only [List.mem_singleton] at he
          subst he
          simp
        · rw [if_neg hrem] at he
          simp only [List.mem_cons] at he
          rcases he with he | he
          · subst he
            simp
          · exact ih _ e he

theorem rendering_started_iff_zero_witness :
    ((DidRender emptyDecoderPrePass).2.getD 1 default) ∈
      (didRenderScan 512 emptyDecoderPrePass.mActiveDecoders 512).2 ∧
    (((DidRender emptyDecoderPrePass).2.getD 1 default).firedStarted = true ↔
      ((DidRender emptyDecoderPrePass).2.getD 1 default).framesRenderedBefore = 0) := by
  refine ⟨by decide, ?_⟩
  exact rendering_started_iff_zero 512 emptyDecoderPrePass.mActiveDecoders 512
    ((DidRender emptyDecoderPrePass).2.getD 1 default) (by decide)

/-- Two live decoder states as `DidRender` sees them after a 512-frame pass:
the first has 100 frames left, the second is untouched with 1000 frames. -/
def straddlingSlots : List (Option DecoderStateData) :=
  [some { mDecoder := ⟨1, 600, 600, fmt44⟩, mTimeStamp := 0, mTotalFrames := 600,
          mFramesRendered := 500, mFrameToSeek := -1, mKeepDecoding := false,
          mReadyForCollection := false },
   some { mDecoder := ⟨2, 1000, 1000, fmt44⟩, mTimeStamp := 600, mTotalFrames := 1000,
          mFramesRendered := 0, mFrameToSeek := -1, mKeepDecoding := false,
          mReadyForCollection := false }]

/-- Claim C1. The claim (and the accounting loop's own `remaining` bookkeeping)
requires `give = min(need, remaining)`; the code computes
`min(need, framesRenderedLastPass)` (line 1577).  On a 512-frame pass over
`straddlingSlots` the first state takes its last 100 frames, leaving
`remaining = 412`, yet the second state is handed 512 frames — not
`min(1000, 412) = 412` — so the pass attributes 612 frames in total,
exceeding `framesRenderedLastPass = 512`. -/
theorem didRender_overattribution :
    ((didRenderScan 512 straddlingSlots 512).2.map ScanEntry.give) = [100, 512] ∧
    ((didRenderScan 512 straddlingSlots 512).2.getD 1 default).remainingBefore = 412 ∧
    ((didRenderScan 512 straddlingSlots 512).2.getD 1 default).give ≠
      min (((didRenderScan 512 straddlingSlots 512).2.getD 1 default).totalFrames -
             ((didRenderScan 512 straddlingSlots 512).2.getD 1 default).framesRenderedBefore)
          (((didRenderScan 512 straddlingSlots 512).2.getD 1 default).remainingBefore) ∧
    ((didRenderScan 512 straddlingSlots 512).2.map ScanEntry.give).sum = 612 ∧
    (512 : Int) < ((didRenderScan 512 straddlingSlots 512).2.map ScanEntry.give).sum := by
  decide

/-- The state after: play the 600-frame decoder, start the graph, enqueue the
1000-frame decoder, run both workers to end of stream, render 500 frames,
account them, render 512 more frames (straddling the decoder boundary), and
account those.  Reachable by construction. -/
def straddle1 : PlayerState := (PlayDecoder decoder600 (initialState fmt44 8)).2
def straddle2 : PlayerState := PlayNoArg straddle1
def straddle3 : PlayerState := (Enqueue decoder1000 straddle2).2
def straddle4 : PlayerState := workerStart straddle3
def straddle5 : PlayerState := (workerIteration 0 0 600 straddle4).1
def straddle6 : PlayerState := (workerIteration 0 0 0 straddle5).1
def straddle7 : PlayerState := workerStart straddle6
def straddle8 : PlayerState := (workerIteration 1 0 1000 straddle7).1
def straddle9 : PlayerState := (workerIteration 1 0 0 straddle8).1
def straddle10 : PlayerState := (Render fetchOk 500 [] straddle9).1
def straddle11 : PlayerState := (DidRender straddle10).1
def straddle12 : PlayerState := (Render fetchOk 512 [] straddle11).1
def straddlePassState : PlayerState := (DidRender straddle12).1

lemma straddlePassState_reachable : Reachable straddlePassState :=
  Reachable.didRender straddle12 (by decide)
    (Reachable.render 512 straddle11 (by decide)
      (Reachable.didRender straddle10 (by decide)
        (Reachable.render 500 straddle9 (by decide)
          (Reachable.workerIteration 1 0 0 straddle8 (by decide)
            (Reachable.workerIteration 1 0 1000 straddle7 (by decide)
              (Reachable.workerStart straddle6
                (Reachable.workerIteration 0 0 0 straddle5 (by decide)
                  (Reachable.workerIteration 0 0 600 straddle4 (by decide)
                    (Reachable.workerStart straddle3
                      (Reachable.enqueue decoder1000 straddle2
                        (Reachable.playNoArg straddle1
                          (Reachable.play decoder600 (initialState fmt44 8)
                            (Reachable.init fmt44 8)))))))))))))

/-- Claim C2. Spec invariant 8.4 — the sum of `framesRendered` over the
non-collected decoder states equals the global `framesRendered` — fails at a
reachable state: after the 512-frame pass that straddles the boundary between
the 600-frame and the 1000-frame decoder, the accounting loop (which hands
each state `min(need, framesRenderedLastPass)` instead of
`min(need, remaining)`, line 1577) leaves the second state with
`framesRendered = 512` while the first, fully-rendered state is already
collected, so the non-collected sum is 512 against a global counter of
1012. -/
theorem frames_rendered_sum_invariant_broken :
    Reachable straddlePassState ∧
    straddlePassState.mFramesRendered = 1012 ∧
    sumNonCollectedFramesRendered straddlePassState.mActiveDecoders = 512 ∧
    sumNonCollectedFramesRendered straddlePassState.mActiveDecoders ≠
      straddlePassState.mFramesRendered :=
  ⟨straddlePassState_reachable, by decide, by decide, by decide⟩

/-- Helper: `Play(decoder)` starts a fresh session: the next-decoder timestamp is
zeroed and the session's end-of-stream record emptied. -/
lemma playDecoder_resets_session (d : AudioDecoder) (s : PlayerState) :
    (PlayDecoder d s).2.mNextDecoderStartingTimeStamp = 0 ∧
    (PlayDecoder d s).2.eosTotalsThisSession = [] := by
  unfold PlayDecoder PlayNoArg Pause
  by_cases hrun : s.graphRunning = true <;> simp [hrun]

/-- Helper: `Stop` preserves the session timestamp invariant. -/
lemma stop_preserves_session (s : PlayerState)
    (h : s.mNextDecoderStartingTimeStamp = s.eosTotalsThisSession.sum) :
    (Stop s).mNextDecoderStartingTimeStamp = (Stop s).eosTotalsThisSession.sum := by
  unfold Stop
  by_cases hc : s.graphRunning = true
  · rw [if_neg (by simp [hc])]
    simp
  · rw [if_pos (by simpa using hc)]
    exact h

/-- At every reachable state, `mNextDecoderStartingTimeStamp` equals the sum
of the (corrected) total frame counts of the decoders that reached end of
stream in the current play session. -/
lemma reachable_session_sum :
    ∀ s : PlayerState, Reachable s →
      s.mNextDecoderStartingTimeStamp = s.eosTotalsThisSession.sum := by
  intro s h
  induction h with
  | init fmt slots => simp [initialState]
  | play d s h ih =>
    obtain ⟨h1, h2⟩ := playDecoder_resets_session d s
    rw [h1, h2]
    simp
  | enqueue d s h ih =>
    unfold Enqueue
    split_ifs with h1 h2
    · obtain ⟨e1, e2⟩ := playDecoder_resets_session d s
      rw [e1, e2]
      simp
    · exact ih
    · exact ih
  | playNoArg s h ih =>
    unfold PlayNoArg
    split_ifs <;> exact ih
  | pause s h ih =>
    unfold Pause
    split_ifs <;> exact ih
  | stop s h ih => exact stop_preserves_session s ih
  | workerStart s h ih =>
    unfold workerStart
    split
    · exact ih
    · exact ih
  | workerIteration i seekReply readReply s hread h ih =>
    simp only [workerIteration]
    split
    · exact ih
    · split_ifs <;> first
        | exact ih
        | simp [List.sum_append, ih]
  | render inNumberFrames s hrun h ih =>
    simp only [Render, fetchOk]
    split_ifs <;> exact ih
  | didRender s hrun h ih =>
    simp only [DidRender]
    split_ifs with h0 hcur
    · exact ih
    · exact stop_preserves_session _ ih
    · exact ih
  | collect s h ih => exact ih

/-- Claim C6. At end of stream (a read of 0 frames with no pending seek and
enough ring space), the worker fires the decoding-finished callback (after a
decoding-started callback when the stream position is 0), corrects the
state's `totalFrames` to the frames actually produced (`startFrame`, the
decoder's current position), clears `keepDecoding`, adds `startFrame` to
`nextDecoderStartingTimeStamp`, and spawns a worker for the next decoder
exactly when the queue is non-empty; consequently, at every reachable state,
`nextDecoderStartingTimeStamp` equals the sum of `totalFrames` over the
decoders that reached end of stream in the current play session. -/
theorem eos_accounting
    (i : Nat) (seekReply : Int) (s : PlayerState) (ds : DecoderStateData)
    (hslot : s.mActiveDecoders.getD i none = some ds)
    (hcap : ¬ toUInt32m (ringBufferSizeFrames - (s.mFramesDecoded - s.mFramesRendered)) <
        toUInt32m ringBufferWriteChunkSizeFrames)
    (hseek : ds.mFrameToSeek = -1) :
    workerIteration i seekReply 0 s =
      ({ s with
           mActiveDecoders :=
             s.mActiveDecoders.set i
               (some { ds with
                         mKeepDecoding := false
                         mTotalFrames := ds.mDecoder.currentFrame })
           mNextDecoderStartingTimeStamp :=
             s.mNextDecoderStartingTimeStamp + ds.mDecoder.currentFrame
           eosTotalsThisSession :=
             s.eosTotalsThisSession ++ [ds.mDecoder.currentFrame] },
       (if ds.mDecoder.currentFrame = 0 then [Event.decodingStarted ds.mDecoder.ident]
        else []) ++ [Event.decodingFinished ds.mDecoder.ident],
       decide (s.mDecoderQueue ≠ [])) ∧
    (∀ t : PlayerState, Reachable t →
      t.mNextDecoderStartingTimeStamp = t.eosTotalsThisSession.sum) := by
  constructor
  · simp only [workerIteration, hslot]
    rw [if_neg hcap, if_neg (not_not_intro hseek), if_neg (by norm_num)]
    rfl
  · exact reachable_session_sum

theorem eos_accounting_witness :
    (workerIteration 0 0 0
        (workerStart
          (PlayDecoder decoder600
            (initialState fmt44 8)).2)).1.mNextDecoderStartingTimeStamp = 0 ∧
    (workerIteration 0 0 0
        (workerStart (PlayDecoder decoder600 (initialState fmt44 8)).2)).2 =
      ([Event.decodingStarted 1, Event.decodingFinished 1], false) := by
  have h := eos_accounting 0 0
    (workerStart (PlayDecoder decoder600 (initialState fmt44 8)).2)
    (DecoderStateData.create decoder600 0)
    (by decide) (by decide) (by decide)
  rw [h.1]
  exact ⟨by decide, by decide⟩

end SFB
